import Mathlib

/-!
A shallow embedding of the 3DS chunk parser (`src/lib.rs`, `Parser3DS`).

Modelling conventions:
* A Rust `Cursor<&[u8]>` is a `Cursor`: the byte buffer as a `List Nat`
  (each byte taken mod 256, the value range of `u8`) plus a position.
* Fallible operations return `Except PError α`.  The Rust code calls
  `.unwrap()` on `read_u16`/`read_u32` (panicking with an `UnexpectedEof`
  io error when bytes are missing) and uses `unimplemented!()` for the
  unknown-chunk arms of `read_main`; both panics are modelled as errors
  (`.eof`, `.unimplemented`).  `String::from_utf8(..).unwrap()` becomes
  `.utf8`.  `Cursor::seek(SeekFrom::Start(_))` never fails in Rust, so
  `seekToNextChunk` is total.
* The `while position < end` loops of the four walkers can diverge in
  Rust (a chunk whose declared length is below 6 seeks backwards or in
  place), so the walkers take a fuel argument; exhausted fuel is the
  distinguished error `.outOfFuel`, a modelling artifact standing for
  nontermination.  `readMain` supplies `buf.length + 1` fuel, which is
  proved sufficient whenever every header's declared length is at least 6.
* Offsets are `Nat`.  The Rust arithmetic is on `u64`; since a Rust slice
  holds at most `isize::MAX < 2^63` bytes and each declared length is a
  `u32`, every offset computed by the parser is below `2^63 + 2^32`, so
  `u64` wrap-around is unreachable and plain `Nat` is faithful.
-/

namespace ThreeDS

/-- Model of `std::io::Cursor<&[u8]>`: the borrowed byte buffer and the
current read position. -/
structure Cursor where
  buf : List Nat
  pos : Nat
deriving Repr, DecidableEq

/-- Failure modes of the parse.  `.eof` is the `UnexpectedEof` panic from
the unwrapped header reads, `.unimplemented` the `unimplemented!()` panic
in `read_main`, `.utf8` the `String::from_utf8(..).unwrap()` panic, and
`.outOfFuel` is the modelling artifact for a diverging `while` loop. -/
inductive PError where
  | eof
  | unimplemented
  | utf8
  | outOfFuel
deriving Repr, DecidableEq

/-- The byte stored at index `i`, defaulting to 0 out of range; `% 256`
normalises the `Nat` entry to the `u8` value range. -/
def byteD (buf : List Nat) (i : Nat) : Nat := buf.getD i 0 % 256

/-- Reading one byte at index `i` succeeds exactly when `i` is in range. -/
def byteAt (c : Cursor) (i : Nat) : Option Nat :=
  if i < c.buf.length then some (byteD c.buf i) else none

/-- The little-endian 16-bit value stored at index `i`. -/
def u16LE (buf : List Nat) (i : Nat) : Nat :=
  byteD buf i + 256 * byteD buf (i + 1)

/-- The little-endian 32-bit value stored at index `i`. -/
def u32LE (buf : List Nat) (i : Nat) : Nat :=
  byteD buf i + 256 * byteD buf (i + 1) + 65536 * byteD buf (i + 2) +
    16777216 * byteD buf (i + 3)

/-- `read_u16::<LittleEndian>()` followed by `.unwrap()`: reads two bytes,
advances the cursor by 2, panics (`.eof`) when fewer than two remain. -/
def readU16 (c : Cursor) : Except PError (Nat × Cursor) :=
  match byteAt c c.pos, byteAt c (c.pos + 1) with
  | some b0, some b1 => .ok (b0 + 256 * b1, { c with pos := c.pos + 2 })
  | _, _ => .error .eof

/-- `read_u32::<LittleEndian>()` followed by `.unwrap()`: reads four bytes,
advances the cursor by 4, panics (`.eof`) when fewer than four remain. -/
def readU32 (c : Cursor) : Except PError (Nat × Cursor) :=
  match byteAt c c.pos, byteAt c (c.pos + 1), byteAt c (c.pos + 2),
      byteAt c (c.pos + 3) with
  | some b0, some b1, some b2, some b3 =>
      .ok (b0 + 256 * b1 + 65536 * b2 + 16777216 * b3,
        { c with pos := c.pos + 4 })
  | _, _, _, _ => .error .eof

/-- `ChunkInfo`: chunk id, the header's start offset, and the declared
total chunk length (`next_chunk_offset`), header included. -/
structure ChunkInfo where
  id : Nat
  offset : Nat
  nextChunkOffset : Nat
deriving Repr, DecidableEq

/-- `ChunkInfo::get_end`: start offset plus the raw declared length. -/
def ChunkInfo.getEnd (info : ChunkInfo) : Nat :=
  info.offset + info.nextChunkOffset

/-- `Parser3DS::read_chunk_info`: records the current position, reads a
little-endian `u16` id then a little-endian `u32` length, advancing the
cursor by exactly 6 bytes. -/
def readChunkInfo (c : Cursor) : Except PError (ChunkInfo × Cursor) :=
  match readU16 c with
  | .error e => .error e
  | .ok (cid, c₁) =>
    match readU32 c₁ with
    | .error e => .error e
    | .ok (len, c₂) => .ok (⟨cid, c.pos, len⟩, c₂)

/-- `Parser3DS::seek_to_next_chunk`: repositions the cursor to
`info.offset + info.next_chunk_offset`.  In Rust this is
`Cursor::seek(SeekFrom::Start(..))`, which succeeds for every target,
including targets past the end of the buffer, so it is total here. -/
def seekToNextChunk (c : Cursor) (info : ChunkInfo) : Cursor :=
  { c with pos := info.getEnd }

/-- The bytes `BufRead::read_until(0, ..)` collects from a byte list: up
to and including the first NUL, or the whole list when no NUL occurs
before the end (reaching EOF is not an error for `read_until`). -/
def takeUntilNul : List Nat → List Nat
  | [] => []
  | b :: t => if b % 256 = 0 then [b % 256] else b % 256 :: takeUntilNul t

/-- `self.data.read_until(b'\0', &mut name).unwrap()`: collects bytes from
the current position up to and including the first NUL byte (or to the end
of the buffer), advancing the cursor past what was collected.  It never
fails on an in-memory cursor. -/
def readUntilNul (c : Cursor) : List Nat × Cursor :=
  let bs := takeUntilNul (c.buf.drop c.pos)
  (bs, { c with pos := c.pos + bs.length })

/-- Is `b` a UTF-8 continuation byte (`0x80..=0xBF`)? -/
def isCont (b : Nat) : Bool := 0x80 ≤ b && b < 0xC0

/-- Strict UTF-8 decoding, the validation performed by Rust's
`String::from_utf8`: rejects stray continuation bytes, overlong
encodings, surrogate code points and values above `0x10FFFF`. -/
def utf8Decode : List Nat → Option (List Char)
  | [] => some []
  | b0 :: t0 =>
    if b0 < 0x80 then
      (utf8Decode t0).map fun cs => Char.ofNat b0 :: cs
    else if b0 < 0xC2 then none
    else if b0 < 0xE0 then
      match t0 with
      | b1 :: t1 =>
        if isCont b1 then
          (utf8Decode t1).map fun cs =>
            Char.ofNat ((b0 - 0xC0) * 64 + (b1 - 0x80)) :: cs
        else none
      | [] => none
    else if b0 < 0xF0 then
      match t0 with
      | b1 :: b2 :: t2 =>
        let cp := (b0 - 0xE0) * 4096 + (b1 - 0x80) * 64 + (b2 - 0x80)
        if isCont b1 && isCont b2 && (0x800 ≤ cp) &&
            (cp < 0xD800 || 0xE000 ≤ cp) then
          (utf8Decode t2).map fun cs => Char.ofNat cp :: cs
        else none
      | _ => none
    else if b0 < 0xF8 then
      match t0 with
      | b1 :: b2 :: b3 :: t3 =>
        let cp := (b0 - 0xF0) * 262144 + (b1 - 0x80) * 4096 +
          (b2 - 0x80) * 64 + (b3 - 0x80)
        if isCont b1 && isCont b2 && isCont b3 && (0x10000 ≤ cp) &&
            (cp ≤ 0x10FFFF) then
          (utf8Decode t3).map fun cs => Char.ofNat cp :: cs
        else none
      | _ => none
    else none

/-- Modelled from the spec: the chunk-id constants live in the `chunks`
module (`src/chunks.rs`), which is not part of the provided sources.  The
values are the standard 3DS chunk ids matching the imported constant
names; the spec fixes only their roles (container root, inert version and
keyframe markers, group and scalar-leaf ids), which require the constants
below to be pairwise distinct. -/
def MAIN3DS : Nat := 0x4D4D

/-- Modelled from the spec: root-level version marker, inert. -/
def MAIN_VERSION : Nat := 0x0002

/-- Modelled from the spec: root-level editor group chunk. -/
def MAIN_EDITOR : Nat := 0x3D3D

/-- Modelled from the spec: root-level keyframe chunk, inert. -/
def MAIN_KEYFRAMES : Nat := 0xB000

/-- Modelled from the spec: editor-level version marker, inert. -/
def EDIT_VERSION : Nat := 0x3D3E

/-- Modelled from the spec: editor-level material group chunk. -/
def EDIT_MATERIAL : Nat := 0xAFFF

/-- Modelled from the spec: material name scalar-leaf chunk. -/
def MATERIAL_NAME : Nat := 0xA000

/-- Modelled from the spec: material texture-map group chunk. -/
def MATERIAL_TEXTURE_MAP : Nat := 0xA200

/-- Modelled from the spec: texture-map name scalar-leaf chunk. -/
def MATERIAL_TEXTURE_MAP_NAME : Nat := 0xA300

/-- `enum MaterialTextureMap`. -/
inductive MaterialTextureMap where
  | Name (s : String)

/-- `enum Material`. -/
inductive Material where
  | Name (s : String)
  | TextureMap (l : List MaterialTextureMap)

/-- `enum Editor`. -/
inductive Editor where
  | Material (l : List Material)

/-- `enum Main`. -/
inductive Main where
  | Editor (l : List Editor)

/-- One iteration of the `read_material_texture_map` loop body: read the
child header, dispatch on its id (`MATERIAL_TEXTURE_MAP_NAME` reads a
NUL-terminated string, pops the terminator and decodes UTF-8; anything
else is silently skipped), then seek to the child's end. -/
def texMapBody (c : Cursor) : Except PError (List MaterialTextureMap × Cursor) :=
  match readChunkInfo c with
  | .error e => .error e
  | .ok (info, c₁) =>
    if info.id = MATERIAL_TEXTURE_MAP_NAME then
      match utf8Decode ((readUntilNul c₁).1.dropLast) with
      | some cs =>
          .ok ([.Name (String.mk cs)], seekToNextChunk (readUntilNul c₁).2 info)
      | none => .error .utf8
    else
      .ok ([], seekToNextChunk c₁ info)

/-- The `while self.data.position() < info.get_end()` loop of
`read_material_texture_map`, with fuel. -/
def texMapLoop (fuel endPos : Nat) (c : Cursor) :
    Except PError (List MaterialTextureMap × Cursor) :=
  match fuel with
  | 0 => if c.pos < endPos then .error .outOfFuel else .ok ([], c)
  | f + 1 =>
    if c.pos < endPos then
      match texMapBody c with
      | .error e => .error e
      | .ok (items, c₁) =>
        match texMapLoop f endPos c₁ with
        | .error e => .error e
        | .ok (rest, c₂) => .ok (items ++ rest, c₂)
    else
      .ok ([], c)

/-- One iteration of the `read_material` loop body: `MATERIAL_NAME` reads
a NUL-terminated string, `MATERIAL_TEXTURE_MAP` recurses into
`read_material_texture_map` over the child's extent, anything else is
silently skipped; every branch then seeks to the child's end. -/
def materialBody (fuel : Nat) (c : Cursor) :
    Except PError (List Material × Cursor) :=
  match readChunkInfo c with
  | .error e => .error e
  | .ok (info, c₁) =>
    if info.id = MATERIAL_NAME then
      match utf8Decode ((readUntilNul c₁).1.dropLast) with
      | some cs =>
          .ok ([.Name (String.mk cs)], seekToNextChunk (readUntilNul c₁).2 info)
      | none => .error .utf8
    else if info.id = MATERIAL_TEXTURE_MAP then
      match texMapLoop fuel info.getEnd c₁ with
      | .error e => .error e
      | .ok (tms, c₂) => .ok ([.TextureMap tms], seekToNextChunk c₂ info)
    else
      .ok ([], seekToNextChunk c₁ info)

/-- The `while` loop of `read_material`, with fuel. -/
def materialLoop (fuel endPos : Nat) (c : Cursor) :
    Except PError (List Material × Cursor) :=
  match fuel with
  | 0 => if c.pos < endPos then .error .outOfFuel else .ok ([], c)
  | f + 1 =>
    if c.pos < endPos then
      match materialBody f c with
      | .error e => .error e
      | .ok (items, c₁) =>
        match materialLoop f endPos c₁ with
        | .error e => .error e
        | .ok (rest, c₂) => .ok (items ++ rest, c₂)
    else
      .ok ([], c)

/-- One iteration of the `read_editor` loop body: `EDIT_VERSION` is inert,
`EDIT_MATERIAL` recurses into `read_material`, anything else is silently
skipped; every branch then seeks to the child's end. -/
def editorBody (fuel : Nat) (c : Cursor) :
    Except PError (List Editor × Cursor) :=
  match readChunkInfo c with
  | .error e => .error e
  | .ok (info, c₁) =>
    if info.id = EDIT_VERSION then
      .ok ([], seekToNextChunk c₁ info)
    else if info.id = EDIT_MATERIAL then
      match materialLoop fuel info.getEnd c₁ with
      | .error e => .error e
      | .ok (ms, c₂) => .ok ([.Material ms], seekToNextChunk c₂ info)
    else
      .ok ([], seekToNextChunk c₁ info)

/-- The `while` loop of `read_editor`, with fuel. -/
def editorLoop (fuel endPos : Nat) (c : Cursor) :
    Except PError (List Editor × Cursor) :=
  match fuel with
  | 0 => if c.pos < endPos then .error .outOfFuel else .ok ([], c)
  | f + 1 =>
    if c.pos < endPos then
      match editorBody f c with
      | .error e => .error e
      | .ok (items, c₁) =>
        match editorLoop f endPos c₁ with
        | .error e => .error e
        | .ok (rest, c₂) => .ok (items ++ rest, c₂)
    else
      .ok ([], c)

/-- One iteration of the loop in `read_main` over the root's direct
children: `MAIN_VERSION` and `MAIN_KEYFRAMES` are inert, `MAIN_EDITOR`
recurses into `read_editor`; any other id hits `unimplemented!()`, i.e. a
panic, modelled as `.error .unimplemented` — the root-level loop has no
silent-skip arm. -/
def mainBody (fuel : Nat) (c : Cursor) :
    Except PError (List Main × Cursor) :=
  match readChunkInfo c with
  | .error e => .error e
  | .ok (info, c₁) =>
    if info.id = MAIN_VERSION then
      .ok ([], seekToNextChunk c₁ info)
    else if info.id = MAIN_EDITOR then
      match editorLoop fuel info.getEnd c₁ with
      | .error e => .error e
      | .ok (eds, c₂) => .ok ([.Editor eds], seekToNextChunk c₂ info)
    else if info.id = MAIN_KEYFRAMES then
      .ok ([], seekToNextChunk c₁ info)
    else
      .error .unimplemented

/-- The `while` loop of `read_main`, with fuel. -/
def mainLoop (fuel endPos : Nat) (c : Cursor) :
    Except PError (List Main × Cursor) :=
  match fuel with
  | 0 => if c.pos < endPos then .error .outOfFuel else .ok ([], c)
  | f + 1 =>
    if c.pos < endPos then
      match mainBody f c with
      | .error e => .error e
      | .ok (items, c₁) =>
        match mainLoop f endPos c₁ with
        | .error e => .error e
        | .ok (rest, c₂) => .ok (items ++ rest, c₂)
    else
      .ok ([], c)

/-- `Parser3DS::read_main`, run on a fresh cursor at position 0 over the
given buffer (as `Parser3DS::new` plus `read_main` do): reads the root
header; if its id is `MAIN3DS`, walks the root's direct children until the
root's declared end, otherwise `unimplemented!()`.  The fuel
`buf.length + 1` is proved sufficient whenever every header's declared
length is at least 6 (see below). -/
def readMain (buf : List Nat) : Except PError (List Main) :=
  match readChunkInfo ⟨buf, 0⟩ with
  | .error e => .error e
  | .ok (info, c₁) =>
    if info.id = MAIN3DS then
      match mainLoop (buf.length + 1) info.getEnd c₁ with
      | .error e => .error e
      | .ok (items, _) => .ok items
    else
      .error .unimplemented

/-- Ghost instrumentation for the termination statement (a proof
artifact, not part of the Rust code): the positions at which
`read_chunk_info` is invoked while the `read_material_texture_map` loop
runs with the given fuel.  It mirrors the loop's control flow exactly,
calling the same body for its branching, and records a position whether
the read succeeds or fails; with fuel 0 the loop reads nothing. -/
def texMapLoopPos (fuel endPos : Nat) (c : Cursor) : List Nat :=
  match fuel with
  | 0 => []
  | f + 1 =>
    if c.pos < endPos then
      match texMapBody c with
      | .error _ => [c.pos]
      | .ok (_, c₁) => c.pos :: texMapLoopPos f endPos c₁
    else []

/-- Ghost instrumentation: the header-read positions of one
`read_material` loop-body iteration (the child's own header, plus, for a
texture-map child, the headers its nested walker reads). -/
def materialBodyPos (f : Nat) (c : Cursor) : List Nat :=
  match readChunkInfo c with
  | .error _ => [c.pos]
  | .ok (info, c₁) =>
    if info.id = MATERIAL_NAME then [c.pos]
    else if info.id = MATERIAL_TEXTURE_MAP then
      c.pos :: texMapLoopPos f info.getEnd c₁
    else [c.pos]

/-- Ghost instrumentation: the header-read positions of the
`read_material` loop. -/
def materialLoopPos (fuel endPos : Nat) (c : Cursor) : List Nat :=
  match fuel with
  | 0 => []
  | f + 1 =>
    if c.pos < endPos then
      match materialBody f c with
      | .error _ => materialBodyPos f c
      | .ok (_, c₁) => materialBodyPos f c ++ materialLoopPos f endPos c₁
    else []

/-- Ghost instrumentation: the header-read positions of one
`read_editor` loop-body iteration. -/
def editorBodyPos (f : Nat) (c : Cursor) : List Nat :=
  match readChunkInfo c with
  | .error _ => [c.pos]
  | .ok (info, c₁) =>
    if info.id = EDIT_VERSION then [c.pos]
    else if info.id = EDIT_MATERIAL then
      c.pos :: materialLoopPos f info.getEnd c₁
    else [c.pos]

/-- Ghost instrumentation: the header-read positions of the
`read_editor` loop. -/
def editorLoopPos (fuel endPos : Nat) (c : Cursor) : List Nat :=
  match fuel with
  | 0 => []
  | f + 1 =>
    if c.pos < endPos then
      match editorBody f c with
      | .error _ => editorBodyPos f c
      | .ok (_, c₁) => editorBodyPos f c ++ editorLoopPos f endPos c₁
    else []

/-- Ghost instrumentation: the header-read positions of one `read_main`
loop-body iteration over the root's direct children. -/
def mainBodyPos (f : Nat) (c : Cursor) : List Nat :=
  match readChunkInfo c with
  | .error _ => [c.pos]
  | .ok (info, c₁) =>
    if info.id = MAIN_VERSION then [c.pos]
    else if info.id = MAIN_EDITOR then
      c.pos :: editorLoopPos f info.getEnd c₁
    else [c.pos]

/-- Ghost instrumentation: the header-read positions of the `read_main`
loop over the root's direct children. -/
def mainLoopPos (fuel endPos : Nat) (c : Cursor) : List Nat :=
  match fuel with
  | 0 => []
  | f + 1 =>
    if c.pos < endPos then
      match mainBody f c with
      | .error _ => mainBodyPos f c
      | .ok (_, c₁) => mainBodyPos f c ++ mainLoopPos f endPos c₁
    else []

/-- The positions of every chunk header encountered during
`readMain buf`: the offsets at which `read_chunk_info` is invoked during
the traversal, starting with the root header at offset 0.  This is the
exact set the termination precondition quantifies over — a header at an
offset the traversal never visits is unconstrained. -/
def headerPositions (buf : List Nat) : List Nat :=
  match readChunkInfo ⟨buf, 0⟩ with
  | .error _ => [0]
  | .ok (info, c₁) =>
    if info.id = MAIN3DS then
      0 :: mainLoopPos (buf.length + 1) info.getEnd c₁
    else [0]

/-- The synthetic round-trip buffer of the spec: one root chunk containing
one editor chunk, containing one material chunk with a name chunk
(payload `"Wood\0"`) and a texture-map chunk with a name chunk
(payload `"wood.bmp\0"`). -/
def woodBuf : List Nat :=
  [0x4D, 0x4D, 0x32, 0, 0, 0,
   0x3D, 0x3D, 0x2C, 0, 0, 0,
   0xFF, 0xAF, 0x26, 0, 0, 0,
   0x00, 0xA0, 0x0B, 0, 0, 0, 0x57, 0x6F, 0x6F, 0x64, 0x00,
   0x00, 0xA2, 0x15, 0, 0, 0,
   0x00, 0xA3, 0x0F, 0, 0, 0,
   0x77, 0x6F, 0x6F, 0x64, 0x2E, 0x62, 0x6D, 0x70, 0x00]

/-- Root → editor → material → name chunk whose 2-byte payload `"AB"`
contains no NUL before the chunk's declared end (which is also the end of
the buffer). -/
def noNulBuf : List Nat :=
  [0x4D, 0x4D, 0x1A, 0, 0, 0,
   0x3D, 0x3D, 0x14, 0, 0, 0,
   0xFF, 0xAF, 0x0E, 0, 0, 0,
   0x00, 0xA0, 0x08, 0, 0, 0, 0x41, 0x42]

/-- A root chunk whose single direct child has the unrecognized id
`0x1234` and a well-formed declared length. -/
def unknownRootChildBuf : List Nat :=
  [0x4D, 0x4D, 0x0C, 0, 0, 0, 0x34, 0x12, 0x06, 0, 0, 0]

/-- A root chunk whose single direct child (`MAIN_VERSION`) declares a
length of 100, so its computed end offset 106 lies far outside the
12-byte buffer. -/
def oobEndBuf : List Nat :=
  [0x4D, 0x4D, 0x0C, 0, 0, 0, 0x02, 0x00, 0x64, 0, 0, 0]


/-! ### Helper lemmas about the header reader -/

theorem readChunkInfo_eq (c : Cursor) (h : c.pos + 6 ≤ c.buf.length) :
    readChunkInfo c =
      .ok (⟨u16LE c.buf c.pos, c.pos, u32LE c.buf (c.pos + 2)⟩,
        { c with pos := c.pos + 6 }) := by
  have h0 : c.pos < c.buf.length := by omega
  have h1 : c.pos + 1 < c.buf.length := by omega
  have h2 : c.pos + 2 < c.buf.length := by omega
  have h3 : c.pos + 2 + 1 < c.buf.length := by omega
  have h4 : c.pos + 2 + 2 < c.buf.length := by omega
  have h5 : c.pos + 2 + 3 < c.buf.length := by omega
  simp [readChunkInfo, readU16, readU32, byteAt, u16LE, u32LE, h0, h1, h2, h3,
    h4, h5]

theorem readChunkInfo_eof (c : Cursor) (h : c.buf.length < c.pos + 6) :
    readChunkInfo c = .error .eof := by
  by_cases h0 : c.pos < c.buf.length
  · by_cases h1 : c.pos + 1 < c.buf.length
    · by_cases h2 : c.pos + 2 < c.buf.length
      · by_cases h3 : c.pos + 2 + 1 < c.buf.length
        · by_cases h4 : c.pos + 2 + 2 < c.buf.length
          · have h5 : ¬ c.pos + 2 + 3 < c.buf.length := by omega
            simp [readChunkInfo, readU16, readU32, byteAt, h0, h1, h2, h3, h4, h5]
          · simp [readChunkInfo, readU16, readU32, byteAt, h0, h1, h2, h3, h4]
        · simp [readChunkInfo, readU16, readU32, byteAt, h0, h1, h2, h3]
      · simp [readChunkInfo, readU16, readU32, byteAt, h0, h1, h2]
    · simp [readChunkInfo, readU16, byteAt, h0, h1]
  · simp [readChunkInfo, readU16, byteAt, h0]

theorem readChunkInfo_ok_inv {c : Cursor} {info : ChunkInfo} {c₁ : Cursor}
    (h : readChunkInfo c = .ok (info, c₁)) :
    c.pos + 6 ≤ c.buf.length ∧
      info = ⟨u16LE c.buf c.pos, c.pos, u32LE c.buf (c.pos + 2)⟩ ∧
      c₁ = { c with pos := c.pos + 6 } := by
  by_cases hb : c.pos + 6 ≤ c.buf.length
  · rw [readChunkInfo_eq c hb] at h
    refine ⟨hb, ?_, ?_⟩
    · exact ((Prod.mk.injEq _ _ _ _).mp (Except.ok.inj h)).1.symm
    · exact ((Prod.mk.injEq _ _ _ _).mp (Except.ok.inj h)).2.symm
  · rw [readChunkInfo_eof c (by omega)] at h
    exact absurd h (by simp)

theorem readChunkInfo_error_eof {c : Cursor} {e : PError}
    (h : readChunkInfo c = .error e) : e = .eof := by
  by_cases hb : c.pos + 6 ≤ c.buf.length
  · rw [readChunkInfo_eq c hb] at h
    exact absurd h (by simp)
  · rw [readChunkInfo_eof c (by omega)] at h
    exact (Except.error.inj h).symm

/-! ### Loop-body inversion lemmas: how one child is processed -/

theorem texMapBody_eof {c : Cursor} (h : c.buf.length < c.pos + 6) :
    texMapBody c = .error .eof := by
  simp [texMapBody, readChunkInfo_eof c h]

theorem materialBody_eof {f : Nat} {c : Cursor} (h : c.buf.length < c.pos + 6) :
    materialBody f c = .error .eof := by
  simp [materialBody, readChunkInfo_eof c h]

theorem editorBody_eof {f : Nat} {c : Cursor} (h : c.buf.length < c.pos + 6) :
    editorBody f c = .error .eof := by
  simp [editorBody, readChunkInfo_eof c h]

theorem mainBody_eof {f : Nat} {c : Cursor} (h : c.buf.length < c.pos + 6) :
    mainBody f c = .error .eof := by
  simp [mainBody, readChunkInfo_eof c h]

theorem texMapBody_ok {c c' : Cursor} {its : List MaterialTextureMap}
    (h : texMapBody c = .ok (its, c')) :
    c'.buf = c.buf ∧ c'.pos = c.pos + u32LE c.buf (c.pos + 2) ∧
      c.pos + 6 ≤ c.buf.length := by
  unfold texMapBody at h
  split at h
  · simp at h
  next info c₁ heq =>
    obtain ⟨hle, hinfo, hc₁⟩ := readChunkInfo_ok_inv heq
    subst hinfo hc₁
    split at h
    · split at h
      · simp only [Except.ok.injEq, Prod.mk.injEq] at h
        obtain ⟨-, h2⟩ := h
        subst h2
        exact ⟨rfl, rfl, hle⟩
      · simp at h
    · simp only [Except.ok.injEq, Prod.mk.injEq] at h
      obtain ⟨-, h2⟩ := h
      subst h2
      exact ⟨rfl, rfl, hle⟩

theorem texLoop_ok_buf : ∀ {f endPos : Nat} {c : Cursor}
    {its : List MaterialTextureMap} {c' : Cursor},
    texMapLoop f endPos c = .ok (its, c') → c'.buf = c.buf := by
  intro f
  induction f with
  | zero =>
    intro endPos c its c' h
    simp only [texMapLoop] at h
    split at h
    · simp at h
    · simp only [Except.ok.injEq, Prod.mk.injEq] at h
      rw [← h.2]
  | succ f ih =>
    intro endPos c its c' h
    simp only [texMapLoop] at h
    split at h
    · split at h
      · simp at h
      next items c₁ heq =>
        split at h
        · simp at h
        next rest c₂ heq2 =>
          simp only [Except.ok.injEq, Prod.mk.injEq] at h
          rw [← h.2, ih heq2, (texMapBody_ok heq).1]
    · simp only [Except.ok.injEq, Prod.mk.injEq] at h
      rw [← h.2]

theorem materialBody_ok {f : Nat} {c c' : Cursor} {its : List Material}
    (h : materialBody f c = .ok (its, c')) :
    c'.buf = c.buf ∧ c'.pos = c.pos + u32LE c.buf (c.pos + 2) ∧
      c.pos + 6 ≤ c.buf.length := by
  unfold materialBody at h
  split at h
  · simp at h
  next info c₁ heq =>
    obtain ⟨hle, hinfo, hc₁⟩ := readChunkInfo_ok_inv heq
    subst hinfo hc₁
    split at h
    · split at h
      · simp only [Except.ok.injEq, Prod.mk.injEq] at h
        obtain ⟨-, h2⟩ := h
        subst h2
        exact ⟨rfl, rfl, hle⟩
      · simp at h
    · split at h
      · split at h
        · simp at h
        next tms c₂ heq2 =>
          simp only [Except.ok.injEq, Prod.mk.injEq] at h
          obtain ⟨-, h2⟩ := h
          subst h2
          exact ⟨(texLoop_ok_buf heq2 : c₂.buf = _), rfl, hle⟩
      · simp only [Except.ok.injEq, Prod.mk.injEq] at h
        obtain ⟨-, h2⟩ := h
        subst h2
        exact ⟨rfl, rfl, hle⟩

theorem matLoop_ok_buf : ∀ {f endPos : Nat} {c : Cursor}
    {its : List Material} {c' : Cursor},
    materialLoop f endPos c = .ok (its, c') → c'.buf = c.buf := by
  intro f
  induction f with
  | zero =>
    intro endPos c its c' h
    simp only [materialLoop] at h
    split at h
    · simp at h
    · simp only [Except.ok.injEq, Prod.mk.injEq] at h
      rw [← h.2]
  | succ f ih =>
    intro endPos c its c' h
    simp only [materialLoop] at h
    split at h
    · split at h
      · simp at h
      next items c₁ heq =>
        split at h
        · simp at h
        next rest c₂ heq2 =>
          simp only [Except.ok.injEq, Prod.mk.injEq] at h
          rw [← h.2, ih heq2, (materialBody_ok heq).1]
    · simp only [Except.ok.injEq, Prod.mk.injEq] at h
      rw [← h.2]

theorem editorBody_ok {f : Nat} {c c' : Cursor} {its : List Editor}
    (h : editorBody f c = .ok (its, c')) :
    c'.buf = c.buf ∧ c'.pos = c.pos + u32LE c.buf (c.pos + 2) ∧
      c.pos + 6 ≤ c.buf.length := by
  unfold editorBody at h
  split at h
  · simp at h
  next info c₁ heq =>
    obtain ⟨hle, hinfo, hc₁⟩ := readChunkInfo_ok_inv heq
    subst hinfo hc₁
    split at h
    · simp only [Except.ok.injEq, Prod.mk.injEq] at h
      obtain ⟨-, h2⟩ := h
      subst h2
      exact ⟨rfl, rfl, hle⟩
    · split at h
      · split at h
        · simp at h
        next ms c₂ heq2 =>
          simp only [Except.ok.injEq, Prod.mk.injEq] at h
          obtain ⟨-, h2⟩ := h
          subst h2
          exact ⟨(matLoop_ok_buf heq2 : c₂.buf = _), rfl, hle⟩
      · simp only [Except.ok.injEq, Prod.mk.injEq] at h
        obtain ⟨-, h2⟩ := h
        subst h2
        exact ⟨rfl, rfl, hle⟩

theorem edLoop_ok_buf : ∀ {f endPos : Nat} {c : Cursor}
    {its : List Editor} {c' : Cursor},
    editorLoop f endPos c = .ok (its, c') → c'.buf = c.buf := by
  intro f
  induction f with
  | zero =>
    intro endPos c its c' h
    simp only [editorLoop] at h
    split at h
    · simp at h
    · simp only [Except.ok.injEq, Prod.mk.injEq] at h
      rw [← h.2]
  | succ f ih =>
    intro endPos c its c' h
    simp only [editorLoop] at h
    split at h
    · split at h
      · simp at h
      next items c₁ heq =>
        split at h
        · simp at h
        next rest c₂ heq2 =>
          simp only [Except.ok.injEq, Prod.mk.injEq] at h
          rw [← h.2, ih heq2, (editorBody_ok heq).1]
    · simp only [Except.ok.injEq, Prod.mk.injEq] at h
      rw [← h.2]

theorem mainBody_ok {f : Nat} {c c' : Cursor} {its : List Main}
    (h : mainBody f c = .ok (its, c')) :
    c'.buf = c.buf ∧ c'.pos = c.pos + u32LE c.buf (c.pos + 2) ∧
      c.pos + 6 ≤ c.buf.length := by
  unfold mainBody at h
  split at h
  · simp at h
  next info c₁ heq =>
    obtain ⟨hle, hinfo, hc₁⟩ := readChunkInfo_ok_inv heq
    subst hinfo hc₁
    split at h
    · simp only [Except.ok.injEq, Prod.mk.injEq] at h
      obtain ⟨-, h2⟩ := h
      subst h2
      exact ⟨rfl, rfl, hle⟩
    · split at h
      · split at h
        · simp at h
        next eds c₂ heq2 =>
          simp only [Except.ok.injEq, Prod.mk.injEq] at h
          obtain ⟨-, h2⟩ := h
          subst h2
          exact ⟨(edLoop_ok_buf heq2 : c₂.buf = _), rfl, hle⟩
      · split at h
        · simp only [Except.ok.injEq, Prod.mk.injEq] at h
          obtain ⟨-, h2⟩ := h
          subst h2
          exact ⟨rfl, rfl, hle⟩
        · simp at h

/-! ### Fuel adequacy: when every encountered header declares a length of
at least 6, the supplied fuel is never exhausted -/

theorem texMapBody_ne_fuel (c : Cursor) : texMapBody c ≠ .error .outOfFuel := by
  intro hcon
  unfold texMapBody at hcon
  split at hcon
  next e heq =>
    have h2 := readChunkInfo_error_eof heq
    rw [Except.error.inj hcon] at h2
    exact PError.noConfusion h2
  next info c₁ heq =>
    split at hcon
    · split at hcon
      · exact Except.noConfusion hcon
      · exact PError.noConfusion (Except.error.inj hcon)
    · exact Except.noConfusion hcon

theorem materialBodyPos_head (f : Nat) (c : Cursor) :
    c.pos ∈ materialBodyPos f c := by
  unfold materialBodyPos
  split
  · simp
  · split
    · simp
    · split
      · simp
      · simp

theorem editorBodyPos_head (f : Nat) (c : Cursor) :
    c.pos ∈ editorBodyPos f c := by
  unfold editorBodyPos
  split
  · simp
  · split
    · simp
    · split
      · simp
      · simp

theorem mainBodyPos_head (f : Nat) (c : Cursor) :
    c.pos ∈ mainBodyPos f c := by
  unfold mainBodyPos
  split
  · simp
  · split
    · simp
    · split
      · simp
      · simp

theorem texLoop_no_fuel : ∀ {f endPos : Nat} {c : Cursor},
    (∀ p ∈ texMapLoopPos (f + 1) endPos c,
      p + 6 ≤ c.buf.length → 6 ≤ u32LE c.buf (p + 2)) →
    c.buf.length ≤ c.pos + 6 * f →
    texMapLoop (f + 1) endPos c ≠ .error .outOfFuel := by
  intro f
  induction f with
  | zero =>
    intro endPos c _ hlen hcon
    simp only [texMapLoop] at hcon
    split at hcon
    · rw [texMapBody_eof (by omega)] at hcon
      simp at hcon
    · exact Except.noConfusion hcon
  | succ f ih =>
    intro endPos c hH hlen hcon
    simp only [texMapLoop] at hcon
    split at hcon
    next hlt =>
      split at hcon
      next e heq =>
        exact texMapBody_ne_fuel c ((Except.error.inj hcon) ▸ heq)
      next items c₁ heq =>
        split at hcon
        next e heq2 =>
          have hadv := texMapBody_ok heq
          have hp := hadv.2.1
          have hunf : texMapLoopPos (f + 1 + 1) endPos c =
              c.pos :: texMapLoopPos (f + 1) endPos c₁ := by
            simp [texMapLoopPos, hlt, heq]
          have h6 : 6 ≤ u32LE c.buf (c.pos + 2) :=
            hH c.pos (by rw [hunf]; exact List.mem_cons_self _ _) hadv.2.2
          have hH₁ : ∀ p ∈ texMapLoopPos (f + 1) endPos c₁,
              p + 6 ≤ c₁.buf.length → 6 ≤ u32LE c₁.buf (p + 2) := by
            intro p hpmem
            rw [hadv.1]
            exact hH p (by rw [hunf]; exact List.mem_cons_of_mem _ hpmem)
          have hlen₁ : c₁.buf.length ≤ c₁.pos + 6 * f := by
            rw [hadv.1]; omega
          exact ih hH₁ hlen₁ ((Except.error.inj hcon) ▸ heq2)
        next rest c₂ heq2 => exact Except.noConfusion hcon
    next hnlt => exact Except.noConfusion hcon

theorem materialBody_no_fuel {f : Nat} {c : Cursor}
    (hH : ∀ p ∈ materialBodyPos f c,
      p + 6 ≤ c.buf.length → 6 ≤ u32LE c.buf (p + 2))
    (hlen : c.buf.length ≤ c.pos + 6 * f) :
    materialBody f c ≠ .error .outOfFuel := by
  intro hcon
  unfold materialBody at hcon
  split at hcon
  next e heq =>
    have h2 := readChunkInfo_error_eof heq
    rw [Except.error.inj hcon] at h2
    exact PError.noConfusion h2
  next info c₁ heq =>
    obtain ⟨hle, hinfo, hc₁⟩ := readChunkInfo_ok_inv heq
    split at hcon
    next hname =>
      split at hcon
      · exact Except.noConfusion hcon
      · exact PError.noConfusion (Except.error.inj hcon)
    next hname =>
      split at hcon
      next htm =>
        split at hcon
        next e heq2 =>
          cases f with
          | zero => omega
          | succ f' =>
            have hunf : materialBodyPos (f' + 1) c =
                c.pos :: texMapLoopPos (f' + 1) info.getEnd c₁ := by
              simp [materialBodyPos, heq, htm, MATERIAL_NAME,
                MATERIAL_TEXTURE_MAP]
            have hH₁ : ∀ p ∈ texMapLoopPos (f' + 1) info.getEnd c₁,
                p + 6 ≤ c₁.buf.length → 6 ≤ u32LE c₁.buf (p + 2) := by
              intro p hpmem
              rw [hc₁]
              exact hH p (by rw [hunf]; exact List.mem_cons_of_mem _ hpmem)
            have hlen₁ : c₁.buf.length ≤ c₁.pos + 6 * f' := by
              rw [hc₁]; simp; omega
            exact texLoop_no_fuel hH₁ hlen₁ ((Except.error.inj hcon) ▸ heq2)
        next tms c₂ heq2 => exact Except.noConfusion hcon
      next htm => exact Except.noConfusion hcon

theorem matLoop_no_fuel : ∀ {f endPos : Nat} {c : Cursor},
    (∀ p ∈ materialLoopPos (f + 1) endPos c,
      p + 6 ≤ c.buf.length → 6 ≤ u32LE c.buf (p + 2)) →
    c.buf.length ≤ c.pos + 6 * f →
    materialLoop (f + 1) endPos c ≠ .error .outOfFuel := by
  intro f
  induction f with
  | zero =>
    intro endPos c _ hlen hcon
    simp only [materialLoop] at hcon
    split at hcon
    · rw [materialBody_eof (by omega)] at hcon
      simp at hcon
    · exact Except.noConfusion hcon
  | succ f ih =>
    intro endPos c hH hlen hcon
    simp only [materialLoop] at hcon
    split at hcon
    next hlt =>
      split at hcon
      next e heq =>
        have hunf : materialLoopPos (f + 1 + 1) endPos c =
            materialBodyPos (f + 1) c := by
          simp [materialLoopPos, hlt, heq]
        have hHb : ∀ p ∈ materialBodyPos (f + 1) c,
            p + 6 ≤ c.buf.length → 6 ≤ u32LE c.buf (p + 2) := by
          intro p hpmem
          exact hH p (by rw [hunf]; exact hpmem)
        exact materialBody_no_fuel hHb hlen ((Except.error.inj hcon) ▸ heq)
      next items c₁ heq =>
        split at hcon
        next e heq2 =>
          have hadv := materialBody_ok heq
          have hp := hadv.2.1
          have hunf : materialLoopPos (f + 1 + 1) endPos c =
              materialBodyPos (f + 1) c ++ materialLoopPos (f + 1) endPos c₁ := by
            simp [materialLoopPos, hlt, heq]
          have h6 : 6 ≤ u32LE c.buf (c.pos + 2) :=
            hH c.pos (by
              rw [hunf]
              exact List.mem_append_left _ (materialBodyPos_head (f + 1) c))
              hadv.2.2
          have hH₁ : ∀ p ∈ materialLoopPos (f + 1) endPos c₁,
              p + 6 ≤ c₁.buf.length → 6 ≤ u32LE c₁.buf (p + 2) := by
            intro p hpmem
            rw [hadv.1]
            exact hH p (by rw [hunf]; exact List.mem_append_right _ hpmem)
          have hlen₁ : c₁.buf.length ≤ c₁.pos + 6 * f := by
            rw [hadv.1]; omega
          exact ih hH₁ hlen₁ ((Except.error.inj hcon) ▸ heq2)
        next rest c₂ heq2 => exact Except.noConfusion hcon
    next hnlt => exact Except.noConfusion hcon

theorem editorBody_no_fuel {f : Nat} {c : Cursor}
    (hH : ∀ p ∈ editorBodyPos f c,
      p + 6 ≤ c.buf.length → 6 ≤ u32LE c.buf (p + 2))
    (hlen : c.buf.length ≤ c.pos + 6 * f) :
    editorBody f c ≠ .error .outOfFuel := by
  intro hcon
  unfold editorBody at hcon
  split at hcon
  next e heq =>
    have h2 := readChunkInfo_error_eof heq
    rw [Except.error.inj hcon] at h2
    exact PError.noConfusion h2
  next info c₁ heq =>
    obtain ⟨hle, hinfo, hc₁⟩ := readChunkInfo_ok_inv heq
    split at hcon
    next hver => exact Except.noConfusion hcon
    next hver =>
      split at hcon
      next hmat =>
        split at hcon
        next e heq2 =>
          cases f with
          | zero => omega
          | succ f' =>
            have hunf : editorBodyPos (f' + 1) c =
                c.pos :: materialLoopPos (f' + 1) info.getEnd c₁ := by
              simp [editorBodyPos, heq, hmat, EDIT_VERSION, EDIT_MATERIAL]
            have hH₁ : ∀ p ∈ materialLoopPos (f' + 1) info.getEnd c₁,
                p + 6 ≤ c₁.buf.length → 6 ≤ u32LE c₁.buf (p + 2) := by
              intro p hpmem
              rw [hc₁]
              exact hH p (by rw [hunf]; exact List.mem_cons_of_mem _ hpmem)
            have hlen₁ : c₁.buf.length ≤ c₁.pos + 6 * f' := by
              rw [hc₁]; simp; omega
            exact matLoop_no_fuel hH₁ hlen₁ ((Except.error.inj hcon) ▸ heq2)
        next ms c₂ heq2 => exact Except.noConfusion hcon
      next hmat => exact Except.noConfusion hcon

theorem edLoop_no_fuel : ∀ {f endPos : Nat} {c : Cursor},
    (∀ p ∈ editorLoopPos (f + 1) endPos c,
      p + 6 ≤ c.buf.length → 6 ≤ u32LE c.buf (p + 2)) →
    c.buf.length ≤ c.pos + 6 * f →
    editorLoop (f + 1) endPos c ≠ .error .outOfFuel := by
  intro f
  induction f with
  | zero =>
    intro endPos c _ hlen hcon
    simp only [editorLoop] at hcon
    split at hcon
    · rw [editorBody_eof (by omega)] at hcon
      simp at hcon
    · exact Except.noConfusion hcon
  | succ f ih =>
    intro endPos c hH hlen hcon
    simp only [editorLoop] at hcon
    split at hcon
    next hlt =>
      split at hcon
      next e heq =>
        have hunf : editorLoopPos (f + 1 + 1) endPos c =
            editorBodyPos (f + 1) c := by
          simp [editorLoopPos, hlt, heq]
        have hHb : ∀ p ∈ editorBodyPos (f + 1) c,
            p + 6 ≤ c.buf.length → 6 ≤ u32LE c.buf (p + 2) := by
          intro p hpmem
          exact hH p (by rw [hunf]; exact hpmem)
        exact editorBody_no_fuel hHb hlen ((Except.error.inj hcon) ▸ heq)
      next items c₁ heq =>
        split at hcon
        next e heq2 =>
          have hadv := editorBody_ok heq
          have hp := hadv.2.1
          have hunf : editorLoopPos (f + 1 + 1) endPos c =
              editorBodyPos (f + 1) c ++ editorLoopPos (f + 1) endPos c₁ := by
            simp [editorLoopPos, hlt, heq]
          have h6 : 6 ≤ u32LE c.buf (c.pos + 2) :=
            hH c.pos (by
              rw [hunf]
              exact List.mem_append_left _ (editorBodyPos_head (f + 1) c))
              hadv.2.2
          have hH₁ : ∀ p ∈ editorLoopPos (f + 1) endPos c₁,
              p + 6 ≤ c₁.buf.length → 6 ≤ u32LE c₁.buf (p + 2) := by
            intro p hpmem
            rw [hadv.1]
            exact hH p (by rw [hunf]; exact List.mem_append_right _ hpmem)
          have hlen₁ : c₁.buf.length ≤ c₁.pos + 6 * f := by
            rw [hadv.1]; omega
          exact ih hH₁ hlen₁ ((Except.error.inj hcon) ▸ heq2)
        next rest c₂ heq2 => exact Except.noConfusion hcon
    next hnlt => exact Except.noConfusion hcon

theorem mainBody_no_fuel {f : Nat} {c : Cursor}
    (hH : ∀ p ∈ mainBodyPos f c,
      p + 6 ≤ c.buf.length → 6 ≤ u32LE c.buf (p + 2))
    (hlen : c.buf.length ≤ c.pos + 6 * f) :
    mainBody f c ≠ .error .outOfFuel := by
  intro hcon
  unfold mainBody at hcon
  split at hcon
  next e heq =>
    have h2 := readChunkInfo_error_eof heq
    rw [Except.error.inj hcon] at h2
    exact PError.noConfusion h2
  next info c₁ heq =>
    obtain ⟨hle, hinfo, hc₁⟩ := readChunkInfo_ok_inv heq
    split at hcon
    next hver => exact Except.noConfusion hcon
    next hver =>
      split at hcon
      next hed =>
        split at hcon
        next e heq2 =>
          cases f with
          | zero => omega
          | succ f' =>
            have hunf : mainBodyPos (f' + 1) c =
                c.pos :: editorLoopPos (f' + 1) info.getEnd c₁ := by
              simp [mainBodyPos, heq, hed, MAIN_VERSION, MAIN_EDITOR]
            have hH₁ : ∀ p ∈ editorLoopPos (f' + 1) info.getEnd c₁,
                p + 6 ≤ c₁.buf.length → 6 ≤ u32LE c₁.buf (p + 2) := by
              intro p hpmem
              rw [hc₁]
              exact hH p (by rw [hunf]; exact List.mem_cons_of_mem _ hpmem)
            have hlen₁ : c₁.buf.length ≤ c₁.pos + 6 * f' := by
              rw [hc₁]; simp; omega
            exact edLoop_no_fuel hH₁ hlen₁ ((Except.error.inj hcon) ▸ heq2)
        next eds c₂ heq2 => exact Except.noConfusion hcon
      next hed =>
        split at hcon
        · exact Except.noConfusion hcon
        · exact PError.noConfusion (Except.error.inj hcon)

theorem mainLoop_no_fuel : ∀ {f endPos : Nat} {c : Cursor},
    (∀ p ∈ mainLoopPos (f + 1) endPos c,
      p + 6 ≤ c.buf.length → 6 ≤ u32LE c.buf (p + 2)) →
    c.buf.length ≤ c.pos + 6 * f →
    mainLoop (f + 1) endPos c ≠ .error .outOfFuel := by
  intro f
  induction f with
  | zero =>
    intro endPos c _ hlen hcon
    simp only [mainLoop] at hcon
    split at hcon
    · rw [mainBody_eof (by omega)] at hcon
      simp at hcon
    · exact Except.noConfusion hcon
  | succ f ih =>
    intro endPos c hH hlen hcon
    simp only [mainLoop] at hcon
    split at hcon
    next hlt =>
      split at hcon
      next e heq =>
        have hunf : mainLoopPos (f + 1 + 1) endPos c =
            mainBodyPos (f + 1) c := by
          simp [mainLoopPos, hlt, heq]
        have hHb : ∀ p ∈ mainBodyPos (f + 1) c,
            p + 6 ≤ c.buf.length → 6 ≤ u32LE c.buf (p + 2) := by
          intro p hpmem
          exact hH p (by rw [hunf]; exact hpmem)
        exact mainBody_no_fuel hHb hlen ((Except.error.inj hcon) ▸ heq)
      next items c₁ heq =>
        split at hcon
        next e heq2 =>
          have hadv := mainBody_ok heq
          have hp := hadv.2.1
          have hunf : mainLoopPos (f + 1 + 1) endPos c =
              mainBodyPos (f + 1) c ++ mainLoopPos (f + 1) endPos c₁ := by
            simp [mainLoopPos, hlt, heq]
          have h6 : 6 ≤ u32LE c.buf (c.pos + 2) :=
            hH c.pos (by
              rw [hunf]
              exact List.mem_append_left _ (mainBodyPos_head (f + 1) c))
              hadv.2.2
          have hH₁ : ∀ p ∈ mainLoopPos (f + 1) endPos c₁,
              p + 6 ≤ c₁.buf.length → 6 ≤ u32LE c₁.buf (p + 2) := by
            intro p hpmem
            rw [hadv.1]
            exact hH p (by rw [hunf]; exact List.mem_append_right _ hpmem)
          have hlen₁ : c₁.buf.length ≤ c₁.pos + 6 * f := by
            rw [hadv.1]; omega
          exact ih hH₁ hlen₁ ((Except.error.inj hcon) ▸ heq2)
        next rest c₂ heq2 => exact Except.noConfusion hcon
    next hnlt => exact Except.noConfusion hcon

theorem readMain_no_fuel {buf : List Nat}
    (hH : ∀ p ∈ headerPositions buf,
      p + 6 ≤ buf.length → 6 ≤ u32LE buf (p + 2)) :
    readMain buf ≠ .error .outOfFuel := by
  intro hcon
  unfold readMain at hcon
  split at hcon
  next e heq =>
    have h2 := readChunkInfo_error_eof heq
    rw [Except.error.inj hcon] at h2
    exact PError.noConfusion h2
  next info c₁ heq =>
    obtain ⟨hle, hinfo, hc₁⟩ := readChunkInfo_ok_inv heq
    split at hcon
    next hid =>
      split at hcon
      next e heq2 =>
        have hunf : headerPositions buf =
            0 :: mainLoopPos (buf.length + 1) info.getEnd c₁ := by
          simp [headerPositions, heq, hid]
        have hH₁ : ∀ p ∈ mainLoopPos (buf.length + 1) info.getEnd c₁,
            p + 6 ≤ c₁.buf.length → 6 ≤ u32LE c₁.buf (p + 2) := by
          intro p hpmem
          rw [hc₁]
          exact hH p (by rw [hunf]; exact List.mem_cons_of_mem _ hpmem)
        have hlen₁ : c₁.buf.length ≤ c₁.pos + 6 * buf.length := by
          rw [hc₁]; simp; omega
        exact mainLoop_no_fuel hH₁ hlen₁ ((Except.error.inj hcon) ▸ heq2)
      next items c₂ heq2 => exact Except.noConfusion hcon
    next hid => exact PError.noConfusion (Except.error.inj hcon)

/-! ### The claims -/

/-- C1: reading a buffer with exactly one root chunk, containing one
editor chunk, containing one material chunk with a name chunk (payload
`"Wood\0"`) and a texture-map chunk with a name chunk (payload
`"wood.bmp\0"`), returns the tree
`[Editor [Material [Name "Wood", TextureMap [Name "wood.bmp"]]]]`. -/
theorem c1_round_trip :
    readMain woodBuf = .ok [Main.Editor [Editor.Material
      [Material.Name "Wood",
       Material.TextureMap [MaterialTextureMap.Name "wood.bmp"]]]] := rfl

/-- C2 counterexample: in `noNulBuf` the material-name chunk (declared at
offset 18, declared end 26) has payload `"AB"` (offsets 24..26) with no
NUL byte before the declared end, yet the parse succeeds with
`Name "A"` instead of failing with an encoding/format error. -/
theorem c2_counterexample :
    readMain noNulBuf =
      .ok [Main.Editor [Editor.Material [Material.Name "A"]]] ∧
    (∀ b ∈ noNulBuf.drop 24, b ≠ 0) ∧
    u16LE noNulBuf 18 = MATERIAL_NAME ∧
    18 + u32LE noNulBuf 20 = noNulBuf.length :=
  ⟨rfl, by decide, rfl, rfl⟩

/-- C2 amended: the string read performs no terminator check against the
chunk's declared end: it collects bytes up to the first NUL anywhere in
the remaining buffer or to EOF (possibly past the chunk's declared end),
drops the final collected byte, and fails only if the remaining bytes are
not valid UTF-8; afterwards the cursor is repositioned exactly to the
chunk's declared end offset. -/
theorem c2_amended_no_boundary_check :
    (∀ (f : Nat) (c : Cursor) (info : ChunkInfo) (c₁ : Cursor) (cs : List Char),
      readChunkInfo c = .ok (info, c₁) → info.id = MATERIAL_NAME →
      utf8Decode ((readUntilNul c₁).1.dropLast) = some cs →
      materialBody f c =
        .ok ([Material.Name (String.mk cs)],
          seekToNextChunk (readUntilNul c₁).2 info) ∧
      (seekToNextChunk (readUntilNul c₁).2 info).pos = info.getEnd) ∧
    (∀ (c : Cursor) (info : ChunkInfo) (c₁ : Cursor) (cs : List Char),
      readChunkInfo c = .ok (info, c₁) → info.id = MATERIAL_TEXTURE_MAP_NAME →
      utf8Decode ((readUntilNul c₁).1.dropLast) = some cs →
      texMapBody c =
        .ok ([MaterialTextureMap.Name (String.mk cs)],
          seekToNextChunk (readUntilNul c₁).2 info) ∧
      (seekToNextChunk (readUntilNul c₁).2 info).pos = info.getEnd) := by
  constructor
  · intro f c info c₁ cs hrc hid hdec
    refine ⟨?_, rfl⟩
    unfold materialBody
    rw [hrc]
    simp [hid, hdec]
  · intro c info c₁ cs hrc hid hdec
    refine ⟨?_, rfl⟩
    unfold texMapBody
    rw [hrc]
    simp [hid, hdec]

/-- C2 amended, witness: a concrete material-name chunk whose payload is
`"A\0"`; the branch succeeds and leaves the cursor at the declared end. -/
theorem c2_amended_witness :
    materialBody 0 ⟨[0x00, 0xA0, 8, 0, 0, 0, 65, 0], 0⟩ =
      .ok ([Material.Name "A"], ⟨[0x00, 0xA0, 8, 0, 0, 0, 65, 0], 8⟩) := by
  have h := c2_amended_no_boundary_check.1 0
      ⟨[0x00, 0xA0, 8, 0, 0, 0, 65, 0], 0⟩ ⟨0xA000, 0, 8⟩
      ⟨[0x00, 0xA0, 8, 0, 0, 0, 65, 0], 6⟩ ['A'] rfl rfl rfl
  exact h.1

/-- C3 counterexample: a root chunk whose single direct child has the
unrecognized id `0x1234` and a well-formed declared length; `read_main`
aborts with the `unimplemented!()` panic instead of silently skipping the
child and continuing. -/
theorem c3_counterexample :
    readMain unknownRootChildBuf = .error .unimplemented ∧
    u16LE unknownRootChildBuf 0 = MAIN3DS ∧
    u16LE unknownRootChildBuf 6 ≠ MAIN_VERSION ∧
    u16LE unknownRootChildBuf 6 ≠ MAIN_EDITOR ∧
    u16LE unknownRootChildBuf 6 ≠ MAIN_KEYFRAMES ∧
    6 + u32LE unknownRootChildBuf 8 = unknownRootChildBuf.length :=
  ⟨rfl, rfl, by decide, by decide, by decide, rfl⟩

/-- C3 amended: in `read_editor`, `read_material` and
`read_material_texture_map` an unrecognized child id is silently skipped
(no extraction, no error, cursor advanced to the child's end), but in
`read_main`'s loop over the root's direct children an unrecognized id
aborts the parse with the `unimplemented!()` panic. -/
theorem c3_amended_skip_policy :
    (∀ (f : Nat) (c : Cursor) (info : ChunkInfo) (c₁ : Cursor),
      readChunkInfo c = .ok (info, c₁) → info.id ≠ EDIT_VERSION →
      info.id ≠ EDIT_MATERIAL →
      editorBody f c = .ok ([], seekToNextChunk c₁ info)) ∧
    (∀ (f : Nat) (c : Cursor) (info : ChunkInfo) (c₁ : Cursor),
      readChunkInfo c = .ok (info, c₁) → info.id ≠ MATERIAL_NAME →
      info.id ≠ MATERIAL_TEXTURE_MAP →
      materialBody f c = .ok ([], seekToNextChunk c₁ info)) ∧
    (∀ (c : Cursor) (info : ChunkInfo) (c₁ : Cursor),
      readChunkInfo c = .ok (info, c₁) → info.id ≠ MATERIAL_TEXTURE_MAP_NAME →
      texMapBody c = .ok ([], seekToNextChunk c₁ info)) ∧
    (∀ (f : Nat) (c : Cursor) (info : ChunkInfo) (c₁ : Cursor),
      readChunkInfo c = .ok (info, c₁) → info.id ≠ MAIN_VERSION →
      info.id ≠ MAIN_EDITOR → info.id ≠ MAIN_KEYFRAMES →
      mainBody f c = .error .unimplemented) := by
  refine ⟨?_, ?_, ?_, ?_⟩
  · intro f c info c₁ hrc h1 h2
    unfold editorBody
    rw [hrc]
    simp [h1, h2]
  · intro f c info c₁ hrc h1 h2
    unfold materialBody
    rw [hrc]
    simp [h1, h2]
  · intro c info c₁ hrc h1
    unfold texMapBody
    rw [hrc]
    simp [h1]
  · intro f c info c₁ hrc h1 h2 h3
    unfold mainBody
    rw [hrc]
    simp [h1, h2, h3]

/-- C3 amended, witness: an unrecognized child id at the editor level is
skipped without error and the cursor lands at the child's end. -/
theorem c3_amended_witness :
    editorBody 0 ⟨[0x34, 0x12, 6, 0, 0, 0], 0⟩ =
      .ok ([], ⟨[0x34, 0x12, 6, 0, 0, 0], 6⟩) := by
  have h := c3_amended_skip_policy.1 0 ⟨[0x34, 0x12, 6, 0, 0, 0], 0⟩
      ⟨0x1234, 0, 6⟩ ⟨[0x34, 0x12, 6, 0, 0, 0], 6⟩ rfl (by decide) (by decide)
  exact h

/-- C4: a header read attempted with fewer than 6 bytes remaining fails
with the `UnexpectedEof` condition; a walker loop that attempts such a
read fails the same way, and a buffer shorter than 6 bytes makes the
whole parse fail with `.eof` rather than returning an empty tree. -/
theorem c4_truncation :
    (∀ c : Cursor, c.buf.length < c.pos + 6 → readChunkInfo c = .error .eof) ∧
    (∀ (f endPos : Nat) (c : Cursor), c.pos < endPos →
      c.buf.length < c.pos + 6 →
      mainLoop (f + 1) endPos c = .error .eof ∧
      editorLoop (f + 1) endPos c = .error .eof ∧
      materialLoop (f + 1) endPos c = .error .eof ∧
      texMapLoop (f + 1) endPos c = .error .eof) ∧
    (∀ buf : List Nat, buf.length < 6 → readMain buf = .error .eof) := by
  refine ⟨fun c h => readChunkInfo_eof c h, ?_, ?_⟩
  · intro f endPos c h1 h2
    refine ⟨?_, ?_, ?_, ?_⟩
    · simp only [mainLoop]
      rw [if_pos h1, mainBody_eof h2]
    · simp only [editorLoop]
      rw [if_pos h1, editorBody_eof h2]
    · simp only [materialLoop]
      rw [if_pos h1, materialBody_eof h2]
    · simp only [texMapLoop]
      rw [if_pos h1, texMapBody_eof h2]
  · intro buf h
    unfold readMain
    rw [readChunkInfo_eof ⟨buf, 0⟩ (by simpa using h)]

/-- C4 witness: a 3-byte buffer fails with `.eof`. -/
theorem c4_witness : readMain [0, 1, 2] = .error .eof :=
  c4_truncation.2.2 [0, 1, 2] (by decide)

/-- C5 counterexample: in `oobEndBuf` the root's single child declares
length 100, so its computed end offset 106 exceeds the 12-byte buffer;
yet `seek_to_next_chunk` succeeds and the parse completes with `.ok []`
instead of failing with a structural-corruption error. -/
theorem c5_counterexample :
    readMain oobEndBuf = .ok [] ∧
    u16LE oobEndBuf 6 = MAIN_VERSION ∧
    oobEndBuf.length < 6 + u32LE oobEndBuf 8 :=
  ⟨rfl, rfl, by decide⟩

/-- C5 amended: `Cursor::seek(SeekFrom::Start(_))` never fails, so
`seek_to_next_chunk` succeeds even when the chunk's computed end offset
exceeds the buffer length: the cursor is simply positioned past the end
of the buffer and the parse is not aborted at the seek. -/
theorem c5_amended_seek_total (c : Cursor) (info : ChunkInfo)
    (h : c.buf.length < info.getEnd) :
    seekToNextChunk c info = ⟨c.buf, info.getEnd⟩ := rfl

/-- C5 amended, witness: seeking to end offset 10 in a 1-byte buffer
succeeds. -/
theorem c5_amended_witness :
    seekToNextChunk ⟨[0], 0⟩ ⟨0, 5, 5⟩ = ⟨[0], 10⟩ :=
  c5_amended_seek_total ⟨[0], 0⟩ ⟨0, 5, 5⟩ (by decide)

/-- C6: with at least 6 bytes remaining, `read_chunk_info` reads a
little-endian u16 id and little-endian u32 total length, advances the
cursor by exactly 6 bytes, and the chunk's end offset is the header's
start offset plus the raw length field. -/
theorem c6_header_read (c : Cursor) (h : c.pos + 6 ≤ c.buf.length) :
    readChunkInfo c =
      .ok (⟨u16LE c.buf c.pos, c.pos, u32LE c.buf (c.pos + 2)⟩,
        { c with pos := c.pos + 6 }) ∧
    (⟨u16LE c.buf c.pos, c.pos, u32LE c.buf (c.pos + 2)⟩ : ChunkInfo).getEnd =
      c.pos + u32LE c.buf (c.pos + 2) :=
  ⟨readChunkInfo_eq c h, rfl⟩

/-- C6 witness: the header `4D 4D 32 00 00 00` at position 0 reads id
`0x4D4D`, length `0x32`, and leaves the cursor at 6. -/
theorem c6_witness :
    readChunkInfo ⟨[0x4D, 0x4D, 0x32, 0, 0, 0], 0⟩ =
      .ok (⟨0x4D4D, 0, 0x32⟩, ⟨[0x4D, 0x4D, 0x32, 0, 0, 0], 6⟩) :=
  (c6_header_read ⟨[0x4D, 0x4D, 0x32, 0, 0, 0], 0⟩ (by decide)).1

/-- C7: in every walker and for every dispatch branch that completes, the
cursor position handed to the next loop iteration is exactly the end
offset of the child chunk whose header was just read, independent of how
many bytes the branch's handler consumed. -/
theorem c7_cursor_invariant :
    (∀ (f : Nat) (c : Cursor) (its : List Main) (c' : Cursor)
        (info : ChunkInfo) (c₁ : Cursor),
      mainBody f c = .ok (its, c') → readChunkInfo c = .ok (info, c₁) →
      c'.pos = info.getEnd) ∧
    (∀ (f : Nat) (c : Cursor) (its : List Editor) (c' : Cursor)
        (info : ChunkInfo) (c₁ : Cursor),
      editorBody f c = .ok (its, c') → readChunkInfo c = .ok (info, c₁) →
      c'.pos = info.getEnd) ∧
    (∀ (f : Nat) (c : Cursor) (its : List Material) (c' : Cursor)
        (info : ChunkInfo) (c₁ : Cursor),
      materialBody f c = .ok (its, c') → readChunkInfo c = .ok (info, c₁) →
      c'.pos = info.getEnd) ∧
    (∀ (c : Cursor) (its : List MaterialTextureMap) (c' : Cursor)
        (info : ChunkInfo) (c₁ : Cursor),
      texMapBody c = .ok (its, c') → readChunkInfo c = .ok (info, c₁) →
      c'.pos = info.getEnd) := by
  refine ⟨?_, ?_, ?_, ?_⟩
  · intro f c its c' info c₁ h1 h2
    obtain ⟨-, hinfo, -⟩ := readChunkInfo_ok_inv h2
    rw [(mainBody_ok h1).2.1, hinfo]
    rfl
  · intro f c its c' info c₁ h1 h2
    obtain ⟨-, hinfo, -⟩ := readChunkInfo_ok_inv h2
    rw [(editorBody_ok h1).2.1, hinfo]
    rfl
  · intro f c its c' info c₁ h1 h2
    obtain ⟨-, hinfo, -⟩ := readChunkInfo_ok_inv h2
    rw [(materialBody_ok h1).2.1, hinfo]
    rfl
  · intro c its c' info c₁ h1 h2
    obtain ⟨-, hinfo, -⟩ := readChunkInfo_ok_inv h2
    rw [(texMapBody_ok h1).2.1, hinfo]
    rfl

/-- C7 witness: skipping the unrecognized child `00 00 06 00 00 00` at
the texture-map level leaves the cursor at the child's end offset 6. -/
theorem c7_witness :
    (Cursor.mk [0, 0, 6, 0, 0, 0] 6).pos = ChunkInfo.getEnd ⟨0, 0, 6⟩ :=
  c7_cursor_invariant.2.2.2 ⟨[0, 0, 6, 0, 0, 0], 0⟩ []
    ⟨[0, 0, 6, 0, 0, 0], 6⟩ ⟨0, 0, 6⟩ ⟨[0, 0, 6, 0, 0, 0], 6⟩ rfl rfl

/-- C8: a buffer whose first chunk id is not `MAIN3DS` makes `read_main`
fail with the `unimplemented!()` panic of the root match immediately,
without dispatching any child chunk. -/
theorem c8_root_mismatch (buf : List Nat) (h6 : 6 ≤ buf.length)
    (hid : u16LE buf 0 ≠ MAIN3DS) :
    readMain buf = .error .unimplemented := by
  unfold readMain
  rw [readChunkInfo_eq ⟨buf, 0⟩ (by simpa using h6)]
  simp [hid]

/-- C8 witness: a buffer whose root id is 0 fails with the
unsupported-root panic. -/
theorem c8_witness : readMain [0, 0, 6, 0, 0, 0] = .error .unimplemented :=
  c8_root_mismatch [0, 0, 6, 0, 0, 0] (by decide) (by decide)

/-- C9: the parse is a pure function of the input bytes: two invocations
of `read_main` over the same buffer, each from a fresh cursor at position
0 (which is how `readMain` is defined), return structurally equal
results; the embedding threads all parser state explicitly, so there is
no hidden mutable state to carry between calls. -/
theorem c9_deterministic (buf : List Nat) : readMain buf = readMain buf := rfl

/-- C10: under the precondition that every chunk header encountered
during the traversal (`headerPositions buf` is exactly the set of
offsets at which `read_chunk_info` is invoked while parsing `buf`)
declares a total length of at least 6, every completed loop-body
iteration of every walker ends at the child's start offset plus its
declared length — strictly past the child's start — and the parse
terminates: the fuel `buf.length + 1` supplied by `readMain` is never
exhausted, so `read_main`, `read_editor`, `read_material` and
`read_material_texture_map` all terminate on `buf`. -/
theorem c10_encountered_termination (buf : List Nat)
    (hH : ∀ p ∈ headerPositions buf,
      p + 6 ≤ buf.length → 6 ≤ u32LE buf (p + 2)) :
    (∀ (f : Nat) (c : Cursor) (its : List Main) (c' : Cursor),
      mainBody f c = .ok (its, c') →
      c'.pos = c.pos + u32LE c.buf (c.pos + 2) ∧
        (6 ≤ u32LE c.buf (c.pos + 2) → c.pos < c'.pos)) ∧
    (∀ (f : Nat) (c : Cursor) (its : List Editor) (c' : Cursor),
      editorBody f c = .ok (its, c') →
      c'.pos = c.pos + u32LE c.buf (c.pos + 2) ∧
        (6 ≤ u32LE c.buf (c.pos + 2) → c.pos < c'.pos)) ∧
    (∀ (f : Nat) (c : Cursor) (its : List Material) (c' : Cursor),
      materialBody f c = .ok (its, c') →
      c'.pos = c.pos + u32LE c.buf (c.pos + 2) ∧
        (6 ≤ u32LE c.buf (c.pos + 2) → c.pos < c'.pos)) ∧
    (∀ (c : Cursor) (its : List MaterialTextureMap) (c' : Cursor),
      texMapBody c = .ok (its, c') →
      c'.pos = c.pos + u32LE c.buf (c.pos + 2) ∧
        (6 ≤ u32LE c.buf (c.pos + 2) → c.pos < c'.pos)) ∧
    readMain buf ≠ .error .outOfFuel := by
  refine ⟨?_, ?_, ?_, ?_, readMain_no_fuel hH⟩
  · intro f c its c' h
    have hp := (mainBody_ok h).2.1
    exact ⟨hp, fun h6 => by omega⟩
  · intro f c its c' h
    have hp := (editorBody_ok h).2.1
    exact ⟨hp, fun h6 => by omega⟩
  · intro f c its c' h
    have hp := (materialBody_ok h).2.1
    exact ⟨hp, fun h6 => by omega⟩
  · intro c its c' h
    have hp := (texMapBody_ok h).2.1
    exact ⟨hp, fun h6 => by omega⟩

/-- C10 witness: `woodBuf` satisfies the encountered-header precondition
(the headers the traversal reads declare lengths 50, 44, 38, 11, 21 and
15, all at least 6 — even though some byte windows elsewhere in the
buffer would decode to small u32 values), so the parse terminates
without exhausting fuel. -/
theorem c10_encountered_witness : readMain woodBuf ≠ .error .outOfFuel :=
  (c10_encountered_termination woodBuf (by decide)).2.2.2.2

end ThreeDS
